import Mathlib

/-!
# rt-fs `ls` command: search orchestration, result projection, column rendering

Shallow embedding of `rt-fs/commands/rtfs.go`.

* Go strings are strings of code points; `len` is the UTF-8 byte length, while
  `fmt` pads by code points (`String.length`).
* Go `int` is `Int` with every sum and quotient reduced to 64-bit two's
  complement (`wrapInt`); `/` and `%` truncate towards zero (`Int.tdiv`,
  `Int.tmod`).
* A `*content.ContentReader` is a handle (an index) into the list of streams
  the search service has handed out; the calls the code makes on the outside
  world (searches, `Close`, terminal writes) are recorded, in order, in a trace.
* `checkSearchResults`, `shouldRunSecondSearch`, `trimFoldersFromPath` and
  `minSpace` are declared in another file of the package; the functions of
  `rtfs.go` take them as the parameter `Helpers`.
-/

namespace RtFs

/-- Go `error` values, identified by their message; `none` is `nil`. -/
abbrev Error := String

/-- Record `utils.SearchResult`, as delivered by a result stream. -/
structure SearchResult where
  Path : String
  Type_ : String
deriving DecidableEq

/-- State of a `content.ContentReader`: the records `NextRecord` has still to
deliver, the error `GetError` reports once iteration has ended, and the error
`Close` returns. -/
structure ContentReader where
  pending : List SearchResult
  error : Option Error
  closeError : Option Error
deriving DecidableEq

instance : Inhabited ContentReader := ⟨⟨[], none, none⟩⟩

/-- Calls on the outside world, as they appear in the trace. -/
inductive Event where
  | search (pattern : String) (includeDirs : Bool)
  | close (reader : Nat)
  | write (text : String)
deriving DecidableEq

/-- Streams handed out so far (a reader handle is an index in `readers`) and
the trace of outside calls made so far. -/
structure World where
  readers : List ContentReader
  trace : List Event
deriving DecidableEq

/-- Outside collaborators: the search service behind `commands.Exec(searchCmd)`
(pattern and `IncludeDirs` flag in, a stream or an error out), `goterm.Width()`
and `goterm.Color`. -/
structure Env where
  Search : String → Bool → Except Error ContentReader
  Width : Int
  Color : String → Int → String

/-- Package-level declarations used by `rtfs.go` and declared outside it.  The
two stream checks inspect a stream and leave it as they found it. -/
structure Helpers where
  checkSearchResults : ContentReader → String → Option Error
  shouldRunSecondSearch : String → ContentReader → Bool × Option Error
  trimFoldersFromPath : String → String → String
  minSpace : Int

/-- Modelled from the spec: `checkSearchResults` is declared outside `rtfs.go`;
it fails with the not-found error when the stream is empty. -/
def checkSearchResults (reader : ContentReader) (path : String) : Option Error :=
  if reader.pending.length = 0 then
    some ("ls: " ++ path ++ ": No such file or directory")
  else none

/-- Modelled from the spec: `shouldRunSecondSearch` is declared outside
`rtfs.go`; a second search is required when the result set consists of exactly
one record whose path exactly equals the requested pattern. -/
def shouldRunSecondSearch (pattern : String) (reader : ContentReader) : Bool × Option Error :=
  match reader.pending with
  | [r] => (decide (r.Path = pattern), none)
  | _ => (false, none)

/-- The spec-modelled stream checks, around a given trimmer and padding. -/
def specHelpers (trim : String → String → String) (minSpace : Int) : Helpers :=
  ⟨checkSearchResults, shouldRunSecondSearch, trim, minSpace⟩

/-- Go `int` arithmetic: a result is reduced to 64-bit two's complement. -/
def wrapInt (x : Int) : Int := (x + 2 ^ 63) % 2 ^ 64 - 2 ^ 63

/-- Go `len` on a string: its length in bytes. -/
def len (s : String) : Int := s.utf8ByteSize

/-- Constant `goterm.BLUE`. -/
def BLUE : Int := 4

/-- Constant `goterm.WHITE`. -/
def WHITE : Int := 7

/-- State of the stream behind a handle. -/
def World.reader (w : World) (h : Nat) : ContentReader := w.readers.getD h default

/-- Call `commands.Exec(searchCmd)` with the given pattern and `IncludeDirs`
flag, followed by `searchCmd.Result().Reader()`: the search is recorded and a
stream the service hands out gets the next free handle. -/
def Exec (env : Env) (w : World) (pattern : String) (includeDirs : Bool) :
    Except Error Nat × World :=
  let w1 : World := { w with trace := w.trace ++ [Event.search pattern includeDirs] }
  match env.Search pattern includeDirs with
  | .error err => (.error err, w1)
  | .ok r => (.ok w1.readers.length, { w1 with readers := w1.readers ++ [r] })

/-- Call `reader.Close()`. -/
def Close (w : World) (h : Nat) : Option Error × World :=
  ((w.reader h).closeError, { w with trace := w.trace ++ [Event.close h] })

/-- Function `doSearch` (lines 94-126): the returned reader (`none` is a nil
reader), the returned error, and the world afterwards. -/
def doSearch (hp : Helpers) (env : Env) (path : String) (w : World) :
    (Option Nat × Option Error) × World :=
  -- Run the first search
  match Exec env w path true with
  | (.error err, w1) => ((none, some err), w1)
  | (.ok reader, w1) =>
    -- Check the search results
    match hp.checkSearchResults (w1.reader reader) path with
    | some err => ((none, some err), (Close w1 reader).2)
    | none =>
      -- Check if a second search is needed
      match hp.shouldRunSecondSearch path (w1.reader reader) with
      | (runSecondSearch, err) =>
        if !runSecondSearch || err != none then ((some reader, err), w1)
        else
          -- Close the first search reader
          match Close w1 reader with
          | (some err, w2) => ((none, some err), w2)
          | (none, w2) =>
            -- Run search again with "/" in the end of the pattern
            match Exec env w2 (path ++ "/") true with
            | (.error err, w3) => ((none, some err), w3)
            | (.ok reader2, w3) => ((some reader2, none), w3)

/-- Loop of `processSearchResults` (lines 162-172) over the records the stream
has still to deliver: each iteration is one `reader.NextRecord(result)`, and
the loop ends when nothing is pending and `NextRecord` returns an error.  The
other arguments are `allResults` and `maxPathLength`. -/
def processLoop (trim : String → String → String) (pattern : String) :
    List SearchResult → List SearchResult → Int → List SearchResult × Int
  | [], allResults, maxPathLength => (allResults, maxPathLength)
  | result :: rest, allResults, maxPathLength =>
    let result : SearchResult := { result with Path := trim pattern result.Path }
    let pathLength := len result.Path
    if pathLength > 0 then
      processLoop trim pattern rest (allResults ++ [result])
        (if pathLength > maxPathLength then pathLength else maxPathLength)
    else processLoop trim pattern rest allResults maxPathLength

/-- Function `processSearchResults` (lines 154-174): the three returned values
and the state the stream is left in.  The second value is the byte length of
the longest returned path (the comment on lines 152-153 calls it the path). -/
def processSearchResults (hp : Helpers) (pattern : String) (reader : ContentReader) :
    (List SearchResult × Int × Option Error) × ContentReader :=
  match hp.checkSearchResults reader pattern with
  | some err => (([], 0, some err), reader)
  | none =>
    let out := processLoop hp.trimFoldersFromPath pattern reader.pending [] 0
    ((out.1, out.2, reader.error), { reader with pending := [] })

/-- Whether Go `fmt` accepts the decimal width `n` written in a format string:
while it reads the digits it gives up as soon as the number read so far exceeds
`1e6` and a further digit follows. -/
def widthAccepted (n : Nat) : Bool := decide (n / 10 ≤ 1000000)

/-- Go `fmt.Sprintf("%-" + strconv.Itoa(width) + "s", s)`.  With an accepted
width, `s` followed by spaces up to `|width|` code points (a second `-` is read
as a flag again).  With a width `fmt` gives up on, the rest of the format is
dropped: the verb is reported missing and `s` is reported as an extra
argument. -/
def sprintfLeft (width : Int) (s : String) : String :=
  if widthAccepted width.natAbs then
    s ++ String.mk (List.replicate (width.natAbs - s.length) ' ')
  else "%!(NOVERB)%!(EXTRA string=" ++ s ++ ")"

/-- Loop of `printLsResults` (lines 137-148) from index `i` on: the text it
writes. -/
def printLoop (env : Env) (maxResultsInLine maxPathLength : Int) :
    Nat → List SearchResult → String
  | _, [] => ""
  | i, res :: rest =>
    (if i > 0 ∧ Int.tmod i maxResultsInLine = 0 then "\n" else "")
      ++ env.Color (sprintfLeft maxPathLength res.Path)
          (if res.Type_ = "folder" then BLUE else WHITE)
      ++ printLoop env maxResultsInLine maxPathLength (i + 1) rest

/-- Column width computed by `printLsResults` (line 129):
`maxPathLength += minSpace`. -/
def columnWidth (maxPathLength minSpace : Int) : Int := wrapInt (maxPathLength + minSpace)

/-- Columns per row computed by `printLsResults` (lines 130-133) from the
terminal width and the column width; the division needs a nonzero divisor. -/
def maxResultsInLine (width maxPathLength : Int) : Int :=
  if wrapInt (Int.tdiv width maxPathLength) = 0 then 1
  else wrapInt (Int.tdiv width maxPathLength)

/-- Function `printLsResults` (lines 128-150): the text written to the
terminal, or `none` when the division by a zero column width panics (before
anything is written). -/
def printLsResults (env : Env) (minSpace : Int) (searchResults : List SearchResult)
    (maxPathLength : Int) : Option String :=
  let maxPathLength := columnWidth maxPathLength minSpace
  if maxPathLength = 0 then none
  else
    some (printLoop env (maxResultsInLine env.Width maxPathLength) maxPathLength 0 searchResults
      ++ "\n")

/-- How a call of `doLs` ends: it returns an error value, or it panics. -/
inductive Outcome where
  | returned (err : Option Error)
  | panicked
deriving DecidableEq

/-- Function `doLs` (lines 74-92).  The deferred `reader.Close()` runs last on
every path after the `defer` statement. -/
def doLs (hp : Helpers) (env : Env) (path : String) (w : World) : Outcome × World :=
  -- Execute search command
  match doSearch hp env path w with
  | ((_, some err), w1) => (.returned (some err), w1)
  | ((none, none), w1) => (.panicked, w1)
  | ((some reader, none), w1) =>
    -- Get structured search results and the path with the max length
    match processSearchResults hp path (w1.reader reader) with
    | ((_, _, some err), r) =>
      (.returned (some err), (Close { w1 with readers := w1.readers.set reader r } reader).2)
    | ((searchResults, maxPathLength, none), r) =>
      let w2 : World := { w1 with readers := w1.readers.set reader r }
      -- Print results
      match printLsResults env hp.minSpace searchResults maxPathLength with
      | none => (.panicked, (Close w2 reader).2)
      | some text =>
        (.returned none, (Close { w2 with trace := w2.trace ++ [Event.write text] } reader).2)

/-- The world before the command runs. -/
def World.init : World := ⟨[], []⟩

/-- Number of `Close` calls on a handle in a trace. -/
def closeCount (t : List Event) (h : Nat) : Nat := t.count (Event.close h)

/-- Projection of one record: the path trimmed against the pattern, the type
kept. -/
def trimmed (trim : String → String → String) (pattern : String) (r : SearchResult) :
    SearchResult :=
  ⟨trim pattern r.Path, r.Type_⟩

/-- Invariant of the loop of `processSearchResults`: no collected entry has an
empty path, and the width is the largest byte length among the collected
entries, `0` when there is none. -/
def WidthInv (acc : List SearchResult) (m : Int) : Prop :=
  (∀ e ∈ acc, e.Path ≠ "" ∧ len e.Path ≤ m) ∧ (acc = [] → m = 0)
    ∧ (acc ≠ [] → ∃ e ∈ acc, len e.Path = m)

/-- Cell in the words of the specification: the path, left-justified and
padded with spaces to the column width. -/
def specCell (columnWidth : Int) (path : String) : String :=
  path ++ String.mk (List.replicate (columnWidth.toNat - path.length) ' ')

/-- Layout in the words of the specification: for each entry, in the given
order, a line break if and only if its zero-based index is a nonzero multiple
of the columns per row, then its cell, blue for a folder and white otherwise;
one trailing line break ends the output. -/
def specLayout (color : String → Int → String) (columns columnWidth : Int)
    (entries : List SearchResult) : String :=
  String.join (entries.enum.map fun ie =>
      (if 0 < ie.1 ∧ columns ∣ (ie.1 : Int) then "\n" else "")
        ++ color (specCell columnWidth ie.2.Path) (if ie.2.Type_ = "folder" then BLUE else WHITE))
    ++ "\n"

/-- Modelled from the spec: `trimFoldersFromPath` is declared outside
`rtfs.go`; the pattern, a trailing separator or wildcard taken off, is stripped
from the front of the path together with the separator after it, and what is
left is cut at its first separator.  It only serves as a trimmer at concrete
inputs. -/
def trimFoldersFromPath (pattern path : String) : String :=
  let dir := (pattern.data.reverse.dropWhile (fun c => c = '/' ∨ c = '*')).reverse
  String.mk (((path.data.drop dir.length).dropWhile (fun c => c = '/')).takeWhile
    (fun c => c ≠ '/'))

/-- Helpers at concrete inputs: the spec-modelled checks and trimmer, with a
padding of two columns. -/
def scenarioHelpers : Helpers := specHelpers trimFoldersFromPath 2

/-- Helpers whose `shouldRunSecondSearch` fails to read the stream. -/
def failingHelpers : Helpers :=
  ⟨checkSearchResults, fun _ _ => (false, some "failed reading the search results"),
    trimFoldersFromPath, 2⟩

/-- A repository at concrete inputs: `repo/dir` is a folder with the file
`x.txt` and the folder `sub`, `repo/empty` is a folder without children,
`repo/none` matches nothing, the stream for `repo/broken/` reports an error
once it has delivered its record, and any other pattern is a transport
failure. -/
def scenarioSearch (pattern : String) (_ : Bool) : Except Error ContentReader :=
  if pattern = "repo/dir" then .ok ⟨[⟨"repo/dir", "folder"⟩], none, none⟩
  else if pattern = "repo/dir/" then
    .ok ⟨[⟨"repo/dir/x.txt", "file"⟩, ⟨"repo/dir/sub", "folder"⟩], none, none⟩
  else if pattern = "repo/empty" then .ok ⟨[⟨"repo/empty", "folder"⟩], none, none⟩
  else if pattern = "repo/empty/" then .ok ⟨[], none, none⟩
  else if pattern = "repo/none" then .ok ⟨[], none, none⟩
  else if pattern = "repo/broken/" then
    .ok ⟨[⟨"repo/broken/a", "file"⟩], some "unexpected end of stream", none⟩
  else .error "connection refused"

/-- Terminal of 20 columns that brackets a cell with its colour code. -/
def scenarioEnv : Env :=
  ⟨scenarioSearch, 20, fun s c => (if c = 4 then "<blue>" else "<white>") ++ s ++ "<reset>"⟩

/-! ## Streams and handles -/

theorem reader_append_new (rs : List ContentReader) (r : ContentReader) (t : List Event) :
    World.reader ⟨rs ++ [r], t⟩ rs.length = r := by
  simp [World.reader, List.getD_eq_getElem?_getD]

theorem reader_append_second (rs : List ContentReader) (r0 r1 : ContentReader)
    (t : List Event) :
    World.reader ⟨rs ++ [r0, r1], t⟩ (rs.length + 1) = r1 := by
  have h : (rs ++ [r0, r1])[rs.length + 1]? = some r1 := by
    rw [List.getElem?_append_right (by omega)]
    simp
  simp [World.reader, List.getD_eq_getElem?_getD, h]

theorem set_reader_self (w : World) (h : Nat) (hlt : h < w.readers.length) :
    w.readers.set h (w.reader h) = w.readers := by
  apply List.ext_getElem?
  intro i
  by_cases hi : h = i
  · subst hi
    have hg : w.readers[h]? = some w.readers[h] := List.getElem?_eq_getElem hlt
    simp only [World.reader, List.getD_eq_getElem?_getD, hg, Option.getD_some]
    rw [List.getElem?_set_self (by simpa using hlt)]
  · simp [List.getElem?_set_ne hi]

theorem exec_ok (env : Env) (w : World) (p : String) (b : Bool) (r : ContentReader)
    (h : env.Search p b = .ok r) :
    Exec env w p b
      = (.ok w.readers.length, ⟨w.readers ++ [r], w.trace ++ [Event.search p b]⟩) := by
  simp [Exec, h]

theorem exec_error (env : Env) (w : World) (p : String) (b : Bool) (e : Error)
    (h : env.Search p b = .error e) :
    Exec env w p b = (.error e, ⟨w.readers, w.trace ++ [Event.search p b]⟩) := by
  simp [Exec, h]

/-! ## The paths through `doSearch` -/

theorem doSearch_first_error (hp : Helpers) (env : Env) (p : String) (w : World) (e : Error)
    (hfirst : env.Search p true = .error e) :
    doSearch hp env p w = ((none, some e), ⟨w.readers, w.trace ++ [Event.search p true]⟩) := by
  simp [doSearch, exec_error env w p true e hfirst]

theorem doSearch_check_error (hp : Helpers) (env : Env) (p : String) (w : World)
    (r0 : ContentReader) (err : Error)
    (hfirst : env.Search p true = .ok r0)
    (hcheck : hp.checkSearchResults r0 p = some err) :
    doSearch hp env p w
      = ((none, some err),
          ⟨w.readers ++ [r0],
            w.trace ++ [Event.search p true, Event.close w.readers.length]⟩) := by
  simp [doSearch, exec_ok env w p true r0 hfirst, reader_append_new, hcheck, Close]

theorem doSearch_first_stream (hp : Helpers) (env : Env) (p : String) (w : World)
    (r0 : ContentReader)
    (hfirst : env.Search p true = .ok r0)
    (hcheck : hp.checkSearchResults r0 p = none)
    (hrun : hp.shouldRunSecondSearch p r0 = (false, none)) :
    doSearch hp env p w
      = ((some w.readers.length, none),
          ⟨w.readers ++ [r0], w.trace ++ [Event.search p true]⟩) := by
  simp [doSearch, exec_ok env w p true r0 hfirst, reader_append_new, hcheck, hrun]

theorem doSearch_should_error (hp : Helpers) (env : Env) (p : String) (w : World)
    (r0 : ContentReader) (b : Bool) (e : Error)
    (hfirst : env.Search p true = .ok r0)
    (hcheck : hp.checkSearchResults r0 p = none)
    (hrun : hp.shouldRunSecondSearch p r0 = (b, some e)) :
    doSearch hp env p w
      = ((some w.readers.length, some e),
          ⟨w.readers ++ [r0], w.trace ++ [Event.search p true]⟩) := by
  simp [doSearch, exec_ok env w p true r0 hfirst, reader_append_new, hcheck, hrun]

theorem doSearch_close_error (hp : Helpers) (env : Env) (p : String) (w : World)
    (r0 : ContentReader) (e : Error)
    (hfirst : env.Search p true = .ok r0)
    (hcheck : hp.checkSearchResults r0 p = none)
    (hrun : hp.shouldRunSecondSearch p r0 = (true, none))
    (hclose : r0.closeError = some e) :
    doSearch hp env p w
      = ((none, some e),
          ⟨w.readers ++ [r0],
            w.trace ++ [Event.search p true, Event.close w.readers.length]⟩) := by
  simp [doSearch, exec_ok env w p true r0 hfirst, reader_append_new, hcheck, hrun, Close,
    hclose]

theorem doSearch_second_ok (hp : Helpers) (env : Env) (p : String) (w : World)
    (r0 r1 : ContentReader)
    (hfirst : env.Search p true = .ok r0)
    (hcheck : hp.checkSearchResults r0 p = none)
    (hrun : hp.shouldRunSecondSearch p r0 = (true, none))
    (hclose : r0.closeError = none)
    (hsecond : env.Search (p ++ "/") true = .ok r1) :
    doSearch hp env p w
      = ((some (w.readers.length + 1), none),
          ⟨w.readers ++ [r0, r1],
            w.trace ++ [Event.search p true, Event.close w.readers.length,
              Event.search (p ++ "/") true]⟩) := by
  simp [doSearch, exec_ok env w p true r0 hfirst, reader_append_new, hcheck, hrun, Close,
    hclose, exec_ok env _ (p ++ "/") true r1 hsecond]

theorem doSearch_second_error (hp : Helpers) (env : Env) (p : String) (w : World)
    (r0 : ContentReader) (e : Error)
    (hfirst : env.Search p true = .ok r0)
    (hcheck : hp.checkSearchResults r0 p = none)
    (hrun : hp.shouldRunSecondSearch p r0 = (true, none))
    (hclose : r0.closeError = none)
    (hsecond : env.Search (p ++ "/") true = .error e) :
    doSearch hp env p w
      = ((none, some e),
          ⟨w.readers ++ [r0],
            w.trace ++ [Event.search p true, Event.close w.readers.length,
              Event.search (p ++ "/") true]⟩) := by
  simp [doSearch, exec_ok env w p true r0 hfirst, reader_append_new, hcheck, hrun, Close,
    hclose, exec_error env _ (p ++ "/") true e hsecond]

/-! ## The spec-modelled stream checks -/

theorem checkSearchResults_eq_none (reader : ContentReader) (path : String) :
    checkSearchResults reader path = none ↔ reader.pending ≠ [] := by
  cases h : reader.pending <;> simp [checkSearchResults, h]

theorem shouldRunSecondSearch_true (pattern : String) (reader : ContentReader) :
    shouldRunSecondSearch pattern reader = (true, none)
      ↔ ∃ type, reader.pending = [⟨pattern, type⟩] := by
  unfold shouldRunSecondSearch
  rcases hpend : reader.pending with _ | ⟨r, _ | ⟨r2, rest⟩⟩
  · simp
  · obtain ⟨path, type⟩ := r
    simp
  · simp

theorem shouldRunSecondSearch_false (pattern : String) (reader : ContentReader)
    (h : 2 ≤ reader.pending.length ∨ ∃ r, reader.pending = [r] ∧ r.Path ≠ pattern) :
    shouldRunSecondSearch pattern reader = (false, none) := by
  unfold shouldRunSecondSearch
  rcases hpend : reader.pending with _ | ⟨r, _ | ⟨r2, rest⟩⟩
  · simp
  · rcases h with h | ⟨r', hr, hne⟩
    · simp [hpend] at h
    · rw [hpend] at hr
      simp only [List.cons.injEq, and_true] at hr
      subst hr
      simp [hne]
  · simp

theorem checkSearchResults_empty (reader : ContentReader) (path : String)
    (h : reader.pending = []) :
    checkSearchResults reader path = some ("ls: " ++ path ++ ": No such file or directory") := by
  simp [checkSearchResults, h]

theorem shouldRunSecondSearch_no_error (pattern : String) (reader : ContentReader) :
    (shouldRunSecondSearch pattern reader).2 = none := by
  unfold shouldRunSecondSearch
  split <;> rfl

/-! ## The paths through `doLs` -/

theorem doLs_search_error (hp : Helpers) (env : Env) (p : String) (w w1 : World)
    (reader : Option Nat) (e : Error)
    (hsearch : doSearch hp env p w = ((reader, some e), w1)) :
    doLs hp env p w = (.returned (some e), w1) := by
  simp [doLs, hsearch]

theorem doLs_check_error (hp : Helpers) (env : Env) (p : String) (w w1 : World)
    (reader : Nat) (e : Error)
    (hsearch : doSearch hp env p w = ((some reader, none), w1))
    (hcheck : hp.checkSearchResults (w1.reader reader) p = some e) :
    doLs hp env p w
      = (.returned (some e),
          ⟨w1.readers.set reader (w1.reader reader), w1.trace ++ [Event.close reader]⟩) := by
  simp [doLs, hsearch, processSearchResults, hcheck, Close]

theorem doLs_stream_error (hp : Helpers) (env : Env) (p : String) (w w1 : World)
    (reader : Nat) (e : Error)
    (hsearch : doSearch hp env p w = ((some reader, none), w1))
    (hcheck : hp.checkSearchResults (w1.reader reader) p = none)
    (herr : (w1.reader reader).error = some e) :
    doLs hp env p w
      = (.returned (some e),
          ⟨w1.readers.set reader { w1.reader reader with pending := [] },
            w1.trace ++ [Event.close reader]⟩) := by
  simp [doLs, hsearch, processSearchResults, hcheck, herr, Close]

/-! ## The loop of `processSearchResults` -/

theorem len_pos_iff (s : String) : len s > 0 ↔ s ≠ "" := by
  obtain ⟨cs⟩ := s
  cases cs with
  | nil => simp [len, String.utf8ByteSize, String.utf8ByteSize.go]
  | cons c cs =>
    have hc := Char.utf8Size_pos c
    have hne : (⟨c :: cs⟩ : String) ≠ "" := by
      intro h
      have := congrArg String.data h
      simp at this
    simp only [len, String.utf8ByteSize, String.utf8ByteSize.go, gt_iff_lt, ne_eq, hne,
      not_false_eq_true, iff_true]
    omega

theorem length_le_len (s : String) : (s.length : Int) ≤ len s := by
  obtain ⟨cs⟩ := s
  have h : ∀ l : List Char, l.length ≤ String.utf8ByteSize.go l := by
    intro l
    induction l with
    | nil => simp [String.utf8ByteSize.go]
    | cons c cs ih =>
      have hc := Char.utf8Size_pos c
      simp only [List.length_cons, String.utf8ByteSize.go]
      omega
  have := h cs
  simp only [len, String.utf8ByteSize, String.length]
  exact_mod_cast this

theorem processLoop_fst (trim : String → String → String) (pattern : String)
    (recs acc : List SearchResult) (m : Int) :
    (processLoop trim pattern recs acc m).1
      = acc ++ (recs.map (trimmed trim pattern)).filter (fun e => decide (e.Path ≠ "")) := by
  induction recs generalizing acc m with
  | nil => simp [processLoop]
  | cons r rest ih =>
    by_cases h : trim pattern r.Path = ""
    · have h0 : ¬ len (trim pattern r.Path) > 0 := by rw [len_pos_iff]; simpa using h
      simp only [processLoop, h0, if_false, ih]
      simp [trimmed, h]
    · have h0 : len (trim pattern r.Path) > 0 := by rw [len_pos_iff]; exact h
      simp only [processLoop, h0, if_true, ih]
      simp [trimmed, h]

theorem processLoop_inv (trim : String → String → String) (pattern : String)
    (recs acc : List SearchResult) (m : Int) (h : WidthInv acc m) :
    WidthInv (processLoop trim pattern recs acc m).1 (processLoop trim pattern recs acc m).2 := by
  induction recs generalizing acc m with
  | nil => simpa [processLoop] using h
  | cons r rest ih =>
    by_cases h0 : len (trim pattern r.Path) > 0
    · simp only [processLoop, h0, if_true]
      apply ih
      obtain ⟨h1, h2, h3⟩ := h
      have hne : trim pattern r.Path ≠ "" := (len_pos_iff _).1 h0
      refine ⟨?_, ?_, ?_⟩
      · intro e he
        rcases List.mem_append.1 he with he | he
        · refine ⟨(h1 e he).1, ?_⟩
          have := (h1 e he).2
          split <;> omega
        · simp only [List.mem_singleton] at he
          subst he
          refine ⟨hne, ?_⟩
          simp only
          split <;> omega
      · intro hnil; simp at hnil
      · intro _
        by_cases hgt : len (trim pattern r.Path) > m
        · refine ⟨⟨trim pattern r.Path, r.Type_⟩, by simp, ?_⟩
          simp [hgt]
        · by_cases hacc : acc = []
          · have := h2 hacc
            omega
          · obtain ⟨e, he, hem⟩ := h3 hacc
            exact ⟨e, List.mem_append_left _ he, by simp [hgt, hem]⟩
    · simp only [processLoop, h0, if_false]
      exact ih acc m h

theorem widthInv_nil : WidthInv [] 0 := by
  simp [WidthInv]

/-! ## Rendering -/

theorem foldl_append_string (l : List String) (a : String) :
    l.foldl (fun r s => r ++ s) a = a ++ l.foldl (fun r s => r ++ s) "" := by
  induction l generalizing a with
  | nil => simp
  | cons x xs ih =>
    simp only [List.foldl_cons, String.empty_append]
    rw [ih (a ++ x), ih x, String.append_assoc]

theorem join_cons (x : String) (xs : List String) :
    String.join (x :: xs) = x ++ String.join xs := by
  simp only [String.join, List.foldl_cons, String.empty_append]
  exact foldl_append_string xs x

theorem wrapInt_eq (x : Int) (hlo : -(2 ^ 63) ≤ x) (hhi : x < 2 ^ 63) : wrapInt x = x := by
  unfold wrapInt
  norm_num at hlo hhi ⊢
  omega

theorem sprintfLeft_eq_specCell (c : Int) (hc : 0 ≤ c) (hwide : c ≤ 10000009) (s : String) :
    sprintfLeft c s = specCell c s := by
  have hnat : c.natAbs = c.toNat := by omega
  have hacc : widthAccepted c.natAbs = true := by
    simp only [widthAccepted, decide_eq_true_eq]
    omega
  rw [hnat] at hacc
  simp [sprintfLeft, specCell, hnat, hacc]

theorem printLoop_eq (env : Env) (k c : Int) (hc : 0 ≤ c) (hwide : c ≤ 10000009) (i : Nat)
    (es : List SearchResult) :
    printLoop env k c i es
      = String.join ((es.enumFrom i).map fun ie =>
          (if 0 < ie.1 ∧ k ∣ (ie.1 : Int) then "\n" else "")
            ++ env.Color (specCell c ie.2.Path)
                (if ie.2.Type_ = "folder" then BLUE else WHITE)) := by
  induction es generalizing i with
  | nil => simp [printLoop, String.join]
  | cons e rest ih =>
    simp only [printLoop, List.enumFrom_cons, List.map_cons, join_cons, ih (i + 1),
      sprintfLeft_eq_specCell c hc hwide, Int.dvd_iff_tmod_eq_zero, gt_iff_lt,
      String.append_assoc]

theorem specCell_length (c : Int) (s : String) (h : (s.length : Int) ≤ c) :
    (specCell c s).length = c.toNat := by
  simp only [specCell, String.length_append, String.length_mk, List.length_replicate]
  omega

/-! ## Search orchestration -/

/-- C1 (disambiguation trigger).  When the stream of the first search passes
`checkSearchResults`, `shouldRunSecondSearch` answers true on it without error
and it closes without error, `doSearch` issues exactly two searches, the
pattern and then the pattern followed by `/`, both with directories included,
closes the first stream between the two, and returns what the second search
returned: its stream, a new handle next to the untouched first stream, or its
error. -/
theorem doSearch_disambiguation (hp : Helpers) (env : Env) (p : String) (w : World)
    (r0 : ContentReader)
    (hfirst : env.Search p true = .ok r0)
    (hcheck : hp.checkSearchResults r0 p = none)
    (hrun : hp.shouldRunSecondSearch p r0 = (true, none))
    (hclose : r0.closeError = none) :
    (doSearch hp env p w).2.trace
        = w.trace ++ [Event.search p true, Event.close w.readers.length,
            Event.search (p ++ "/") true]
      ∧ (∀ r1, env.Search (p ++ "/") true = .ok r1 →
          (doSearch hp env p w).1 = (some (w.readers.length + 1), none)
            ∧ (doSearch hp env p w).2.readers = w.readers ++ [r0, r1])
      ∧ (∀ e, env.Search (p ++ "/") true = .error e →
          (doSearch hp env p w).1 = (none, some e)) := by
  refine ⟨?_, ?_, ?_⟩
  · cases hsecond : env.Search (p ++ "/") true with
    | ok r1 => rw [doSearch_second_ok hp env p w r0 r1 hfirst hcheck hrun hclose hsecond]
    | error e => rw [doSearch_second_error hp env p w r0 e hfirst hcheck hrun hclose hsecond]
  · intro r1 hsecond
    rw [doSearch_second_ok hp env p w r0 r1 hfirst hcheck hrun hclose hsecond]
    exact ⟨rfl, rfl⟩
  · intro e hsecond
    rw [doSearch_second_error hp env p w r0 e hfirst hcheck hrun hclose hsecond]

/-- C1 at `repo/dir`, whose first search returns the single folder record
`repo/dir`: the spec-modelled checks send `doSearch` to the second search. -/
theorem doSearch_disambiguation_witness :
    scenarioEnv.Search "repo/dir" true = .ok ⟨[⟨"repo/dir", "folder"⟩], none, none⟩
      ∧ scenarioHelpers.shouldRunSecondSearch "repo/dir" ⟨[⟨"repo/dir", "folder"⟩], none, none⟩
          = (true, none)
      ∧ (doSearch scenarioHelpers scenarioEnv "repo/dir" World.init).2.trace
          = [Event.search "repo/dir" true, Event.close 0, Event.search "repo/dir/" true]
      ∧ (doSearch scenarioHelpers scenarioEnv "repo/dir" World.init).1 = (some 1, none)
      ∧ (doSearch scenarioHelpers scenarioEnv "repo/dir" World.init).2.readers
          = [⟨[⟨"repo/dir", "folder"⟩], none, none⟩,
              ⟨[⟨"repo/dir/x.txt", "file"⟩, ⟨"repo/dir/sub", "folder"⟩], none, none⟩] :=
  have h := doSearch_disambiguation scenarioHelpers scenarioEnv "repo/dir" World.init
    ⟨[⟨"repo/dir", "folder"⟩], none, none⟩ rfl rfl rfl rfl
  ⟨rfl, rfl, h.1, (h.2.1 _ rfl).1, (h.2.1 _ rfl).2⟩

/-- C2 (no disambiguation).  When the stream of the first search passes
`checkSearchResults` and `shouldRunSecondSearch` answers false on it without
error, `doSearch` returns the handle of that first stream with a nil error; the
stream is as the service handed it out, and the only outside call made is the
first search: no second search and no `Close`. -/
theorem doSearch_first_stream_returned (hp : Helpers) (env : Env) (p : String) (w : World)
    (r0 : ContentReader)
    (hfirst : env.Search p true = .ok r0)
    (hcheck : hp.checkSearchResults r0 p = none)
    (hrun : hp.shouldRunSecondSearch p r0 = (false, none)) :
    doSearch hp env p w
      = ((some w.readers.length, none),
          ⟨w.readers ++ [r0], w.trace ++ [Event.search p true]⟩) :=
  doSearch_first_stream hp env p w r0 hfirst hcheck hrun

/-- C2 at `repo/dir/`, whose first search returns two records. -/
theorem doSearch_first_stream_returned_witness :
    scenarioEnv.Search "repo/dir/" true
        = .ok ⟨[⟨"repo/dir/x.txt", "file"⟩, ⟨"repo/dir/sub", "folder"⟩], none, none⟩
      ∧ scenarioHelpers.shouldRunSecondSearch "repo/dir/"
          ⟨[⟨"repo/dir/x.txt", "file"⟩, ⟨"repo/dir/sub", "folder"⟩], none, none⟩ = (false, none)
      ∧ doSearch scenarioHelpers scenarioEnv "repo/dir/" World.init
          = ((some 0, none),
              ⟨[⟨[⟨"repo/dir/x.txt", "file"⟩, ⟨"repo/dir/sub", "folder"⟩], none, none⟩],
                [Event.search "repo/dir/" true]⟩) :=
  ⟨rfl, rfl, doSearch_first_stream_returned scenarioHelpers scenarioEnv "repo/dir/" World.init
    ⟨[⟨"repo/dir/x.txt", "file"⟩, ⟨"repo/dir/sub", "folder"⟩], none, none⟩ rfl rfl rfl⟩

/-- C3 (empty-result failure).  When `checkSearchResults` reports an error on
the stream of the first search, `doSearch` returns that error with a nil
reader, and the outside calls it has made are the first search followed by one
`Close` of the first stream: no second search. -/
theorem doSearch_empty_result_fails (hp : Helpers) (env : Env) (p : String) (w : World)
    (r0 : ContentReader) (err : Error)
    (hfirst : env.Search p true = .ok r0)
    (hcheck : hp.checkSearchResults r0 p = some err) :
    doSearch hp env p w
      = ((none, some err),
          ⟨w.readers ++ [r0],
            w.trace ++ [Event.search p true, Event.close w.readers.length]⟩) :=
  doSearch_check_error hp env p w r0 err hfirst hcheck

/-- C3 at `repo/none`, whose first search returns no record: the spec-modelled
check reports the not-found error. -/
theorem doSearch_empty_result_fails_witness :
    scenarioEnv.Search "repo/none" true = .ok ⟨[], none, none⟩
      ∧ scenarioHelpers.checkSearchResults ⟨[], none, none⟩ "repo/none"
          = some "ls: repo/none: No such file or directory"
      ∧ doSearch scenarioHelpers scenarioEnv "repo/none" World.init
          = ((none, some "ls: repo/none: No such file or directory"),
              ⟨[⟨[], none, none⟩], [Event.search "repo/none" true, Event.close 0]⟩) :=
  ⟨rfl, rfl, doSearch_empty_result_fails scenarioHelpers scenarioEnv "repo/none" World.init
    ⟨[], none, none⟩ "ls: repo/none: No such file or directory" rfl rfl⟩

/-! ## Result projection -/

/-- C4 (projection).  For a stream that passes `checkSearchResults` and ends
without error, `processSearchResults` returns, with a nil error, the delivered
records in delivery order, each with its path replaced by
`trimFoldersFromPath(pattern, path)` and its type kept, without those whose
trimmed path is empty; the stream is left exhausted. -/
theorem processSearchResults_projection (hp : Helpers) (pattern : String)
    (reader : ContentReader)
    (hcheck : hp.checkSearchResults reader pattern = none)
    (herr : reader.error = none) :
    (processSearchResults hp pattern reader).1.1
        = (reader.pending.map (trimmed hp.trimFoldersFromPath pattern)).filter
            (fun e => decide (e.Path ≠ ""))
      ∧ (processSearchResults hp pattern reader).1.2.2 = none
      ∧ (processSearchResults hp pattern reader).2.pending = [] := by
  simp [processSearchResults, hcheck, herr, processLoop_fst]

/-- C4 on the records of `repo/dir/` followed by the folder's own record. -/
theorem processSearchResults_projection_witness :
    scenarioHelpers.checkSearchResults
        ⟨[⟨"repo/dir/x.txt", "file"⟩, ⟨"repo/dir/sub/y", "file"⟩, ⟨"repo/dir", "folder"⟩],
          none, none⟩ "repo/dir/" = none
      ∧ (processSearchResults scenarioHelpers "repo/dir/"
          ⟨[⟨"repo/dir/x.txt", "file"⟩, ⟨"repo/dir/sub/y", "file"⟩, ⟨"repo/dir", "folder"⟩],
            none, none⟩).1.1
          = [⟨"x.txt", "file"⟩, ⟨"sub", "file"⟩] :=
  have h := processSearchResults_projection scenarioHelpers "repo/dir/"
    ⟨[⟨"repo/dir/x.txt", "file"⟩, ⟨"repo/dir/sub/y", "file"⟩, ⟨"repo/dir", "folder"⟩],
      none, none⟩ rfl rfl
  ⟨rfl, h.1.trans (by decide)⟩

/-- C5 (MaxPathLength invariant).  For every pattern and stream, the entries and
width returned by `processSearchResults` satisfy: the width is `0` when there is
no entry; otherwise it is the byte length of some entry's path and no entry's
path is longer; and no entry has an empty path. -/
theorem processSearchResults_maxPathLength (hp : Helpers) (pattern : String)
    (reader : ContentReader) :
    ((processSearchResults hp pattern reader).1.1 = [] →
        (processSearchResults hp pattern reader).1.2.1 = 0)
      ∧ ((processSearchResults hp pattern reader).1.1 ≠ [] →
          (∃ e ∈ (processSearchResults hp pattern reader).1.1,
              len e.Path = (processSearchResults hp pattern reader).1.2.1)
            ∧ ∀ e ∈ (processSearchResults hp pattern reader).1.1,
                len e.Path ≤ (processSearchResults hp pattern reader).1.2.1)
      ∧ ∀ e ∈ (processSearchResults hp pattern reader).1.1, e.Path ≠ "" := by
  cases hcheck : hp.checkSearchResults reader pattern with
  | some err => simp [processSearchResults, hcheck]
  | none =>
    have h := processLoop_inv hp.trimFoldersFromPath pattern reader.pending [] 0 widthInv_nil
    simp only [processSearchResults, hcheck]
    obtain ⟨h1, h2, h3⟩ := h
    exact ⟨h2, fun hne => ⟨h3 hne, fun e he => (h1 e he).2⟩, fun e he => (h1 e he).1⟩

/-- C6 as stated fails: for the stream of `repo/broken/`, which delivers one
record and then reports an error, `processSearchResults` returns the error
together with the projected entry and its width, not with no entries. -/
theorem processSearchResults_returns_entries_with_error :
    (processSearchResults scenarioHelpers "repo/broken/"
        ⟨[⟨"repo/broken/a", "file"⟩], some "unexpected end of stream", none⟩).1
      = ([⟨"a", "file"⟩], 1, some "unexpected end of stream")
    ∧ (processSearchResults scenarioHelpers "repo/broken/"
        ⟨[⟨"repo/broken/a", "file"⟩], some "unexpected end of stream", none⟩).1
      ≠ ([], 0, some "unexpected end of stream") := by
  decide

/-- C6, amended (all-or-nothing for the caller).  When the stream `doSearch`
returned passes `checkSearchResults` and reports an error at the end of
iteration, `processSearchResults` returns that error together with the entries
projected from the delivered records, and `doLs` discards them: it returns the
error, and the only outside call it makes after the search is the `Close` of the
stream, so nothing is written. -/
theorem stream_error_all_or_nothing (hp : Helpers) (env : Env) (p : String) (w w1 : World)
    (reader : Nat) (e : Error)
    (hsearch : doSearch hp env p w = ((some reader, none), w1))
    (hcheck : hp.checkSearchResults (w1.reader reader) p = none)
    (herr : (w1.reader reader).error = some e) :
    (processSearchResults hp p (w1.reader reader)).1.1
        = ((w1.reader reader).pending.map (trimmed hp.trimFoldersFromPath p)).filter
            (fun x => decide (x.Path ≠ ""))
      ∧ (processSearchResults hp p (w1.reader reader)).1.2.2 = some e
      ∧ (doLs hp env p w).1 = .returned (some e)
      ∧ (doLs hp env p w).2.trace = w1.trace ++ [Event.close reader] := by
  rw [doLs_stream_error hp env p w w1 reader e hsearch hcheck herr]
  simp [processSearchResults, hcheck, herr, processLoop_fst]

/-- C6, amended, at `repo/broken/`. -/
theorem stream_error_all_or_nothing_witness :
    doSearch scenarioHelpers scenarioEnv "repo/broken/" World.init
        = ((some 0, none),
            ⟨[⟨[⟨"repo/broken/a", "file"⟩], some "unexpected end of stream", none⟩],
              [Event.search "repo/broken/" true]⟩)
      ∧ (doLs scenarioHelpers scenarioEnv "repo/broken/" World.init).1
          = .returned (some "unexpected end of stream")
      ∧ (doLs scenarioHelpers scenarioEnv "repo/broken/" World.init).2.trace
          = [Event.search "repo/broken/" true, Event.close 0] :=
  have h := stream_error_all_or_nothing scenarioHelpers scenarioEnv "repo/broken/" World.init
    ⟨[⟨[⟨"repo/broken/a", "file"⟩], some "unexpected end of stream", none⟩],
      [Event.search "repo/broken/" true]⟩ 0 "unexpected end of stream" rfl rfl rfl
  ⟨rfl, h.2.2.1, h.2.2.2⟩

/-! ## Stream release -/

/-- When `shouldRunSecondSearch` reports an error on a stream that passed
`checkSearchResults`, `doLs` returns that error and its only outside call is the
first search: the stream it obtained is not closed. -/
theorem doLs_should_error (hp : Helpers) (env : Env) (p : String) (w : World)
    (r0 : ContentReader) (b : Bool) (e : Error)
    (hfirst : env.Search p true = .ok r0)
    (hcheck : hp.checkSearchResults r0 p = none)
    (hrun : hp.shouldRunSecondSearch p r0 = (b, some e)) :
    doLs hp env p w
      = (.returned (some e), ⟨w.readers ++ [r0], w.trace ++ [Event.search p true]⟩) :=
  doLs_search_error hp env p w _ _ e (doSearch_should_error hp env p w r0 b e hfirst hcheck hrun)

/-- After a successful `doSearch`, `doLs` obtains no further stream, writes at
most its listing, and ends with the deferred `Close` of the returned stream. -/
theorem doLs_after_search (hp : Helpers) (env : Env) (p : String) (w w1 : World) (h : Nat)
    (hsearch : doSearch hp env p w = ((some h, none), w1)) :
    (doLs hp env p w).2.readers.length = w1.readers.length
      ∧ ∃ mid, (doLs hp env p w).2.trace = w1.trace ++ mid ++ [Event.close h]
          ∧ ∀ x ∈ mid, ∃ t, x = Event.write t := by
  simp only [doLs, hsearch]
  split
  · exact ⟨by simp [Close], [], by simp [Close], by simp⟩
  · split
    · exact ⟨by simp [Close], [], by simp [Close], by simp⟩
    · rename_i text _
      exact ⟨by simp [Close], [Event.write text], by simp [Close], by simp⟩

theorem closeCount_writes (mid : List Event) (h : Nat)
    (hmid : ∀ x ∈ mid, ∃ t, x = Event.write t) : closeCount mid h = 0 := by
  simp only [closeCount, List.count_eq_zero]
  intro hmem
  obtain ⟨t, ht⟩ := hmid _ hmem
  cases ht

/-- Whenever `shouldRunSecondSearch` reports no error, every stream `doLs` has
obtained from the search service has been closed exactly once when it ends. -/
theorem doLs_closes_each_stream_once (hp : Helpers) (env : Env) (p : String)
    (hrun : ∀ r, (hp.shouldRunSecondSearch p r).2 = none) (h : Nat)
    (hlt : h < (doLs hp env p World.init).2.readers.length) :
    closeCount (doLs hp env p World.init).2.trace h = 1 := by
  cases hfirst : env.Search p true with
  | error e =>
    rw [doLs_search_error hp env p _ _ _ e (doSearch_first_error hp env p _ e hfirst)] at hlt
    simp [World.init] at hlt
  | ok r0 =>
    cases hcheck : hp.checkSearchResults r0 p with
    | some err =>
      have hd := doLs_search_error hp env p _ _ _ err
        (doSearch_check_error hp env p World.init r0 err hfirst hcheck)
      rw [hd] at hlt ⊢
      simp [World.init] at hlt
      subst hlt
      simp [World.init, closeCount]
    | none =>
      have he := hrun r0
      rcases hr : hp.shouldRunSecondSearch p r0 with ⟨b, e⟩
      rw [hr] at he
      simp only at he
      subst he
      cases b with
      | false =>
        have hs := doSearch_first_stream hp env p World.init r0 hfirst hcheck hr
        obtain ⟨hlen, mid, htr, hmid⟩ := doLs_after_search hp env p _ _ _ hs
        rw [hlen] at hlt
        rw [htr]
        simp [World.init] at hlt
        subst hlt
        have := closeCount_writes mid 0 hmid
        simp [closeCount] at this
        simp [World.init, closeCount, List.count_append, this]
      | true =>
        cases hclose : r0.closeError with
        | some e =>
          have hd := doLs_search_error hp env p _ _ _ e
            (doSearch_close_error hp env p World.init r0 e hfirst hcheck hr hclose)
          rw [hd] at hlt ⊢
          simp [World.init] at hlt
          subst hlt
          simp [World.init, closeCount]
        | none =>
          cases hsecond : env.Search (p ++ "/") true with
          | error e =>
            have hd := doLs_search_error hp env p _ _ _ e
              (doSearch_second_error hp env p World.init r0 e hfirst hcheck hr hclose hsecond)
            rw [hd] at hlt ⊢
            simp [World.init] at hlt
            subst hlt
            simp [World.init, closeCount]
          | ok r1 =>
            have hs := doSearch_second_ok hp env p World.init r0 r1 hfirst hcheck hr hclose
              hsecond
            obtain ⟨hlen, mid, htr, hmid⟩ := doLs_after_search hp env p _ _ _ hs
            rw [hlen] at hlt
            rw [htr]
            have := closeCount_writes mid h hmid
            simp only [closeCount] at this
            simp only [World.init, List.nil_append, List.length_cons, List.length_nil] at hlt
            have hh : h = 0 ∨ h = 1 := by omega
            rcases hh with hh | hh <;> subst hh <;>
              simp [World.init, closeCount, List.count_append, this, List.count_cons]

/-- C7 at its failing input: at `repo/dir`, with a `shouldRunSecondSearch` that
reports an error, `doLs` returns the error having obtained one stream from the
search service and closed it zero times. -/
theorem doLs_leaks_first_stream :
    doLs failingHelpers scenarioEnv "repo/dir" World.init
        = (.returned (some "failed reading the search results"),
            ⟨[⟨[⟨"repo/dir", "folder"⟩], none, none⟩], [Event.search "repo/dir" true]⟩)
      ∧ closeCount (doLs failingHelpers scenarioEnv "repo/dir" World.init).2.trace 0 = 0 := by
  decide

/-! ## Column rendering -/

/-- C8 as stated fails: at the terminal width `-1`, which `goterm.Width()`
returns when the terminal size is not available, with `maxPathLength = 0` and
`minSpace = 1`, the column width is `1` and the columns per row computed are
`-1`, while `max(1, floor(-1 / 1))` is `1`. -/
theorem maxResultsInLine_width_unavailable :
    (0 : Int) ≤ 0 ∧ 1 ≤ columnWidth 0 1
      ∧ maxResultsInLine (-1) (columnWidth 0 1) = -1
      ∧ max 1 ⌊((-1 : Int) : ℚ) / ((columnWidth 0 1 : Int) : ℚ)⌋ = 1
      ∧ ¬ (1 ≤ maxResultsInLine (-1) (columnWidth 0 1)) := by
  have hcw : columnWidth 0 1 = 1 := by decide
  refine ⟨by decide, by decide, by decide, ?_, by decide⟩
  rw [hcw]
  norm_num

/-- C8, amended.  For a column width `c = maxPathLength + minSpace ≥ 1`, as
`printLsResults` computes it, and a terminal width `w > -c`, the columns per
row computed equal `max(1, floor(w / c))`, are at least `1`, and are `1`
whenever `w < c`.  Every width `goterm.Width()` returns meets `w > -c` when
`c ≥ 2`, and every column count `w ≥ 0` when `c = 1`. -/
theorem maxResultsInLine_columns (w m minSpace : Int)
    (hc : 1 ≤ columnWidth m minSpace)
    (hw : -(columnWidth m minSpace) < w) (hint : w < 2 ^ 63) :
    maxResultsInLine w (columnWidth m minSpace)
        = max 1 ⌊(w : ℚ) / ((columnWidth m minSpace : Int) : ℚ)⌋
      ∧ 1 ≤ maxResultsInLine w (columnWidth m minSpace)
      ∧ (w < columnWidth m minSpace → maxResultsInLine w (columnWidth m minSpace) = 1) := by
  generalize columnWidth m minSpace = c at *
  have hfloor : ⌊(w : ℚ) / (c : ℚ)⌋ = w / c := by
    obtain ⟨n, hn⟩ : ∃ n : ℕ, c = (n : Int) := ⟨c.toNat, by omega⟩
    subst hn
    exact_mod_cast Rat.floor_intCast_div_natCast w n
  rw [hfloor]
  by_cases h0 : 0 ≤ w
  · have hdiv : Int.tdiv w c = w / c := Int.tdiv_eq_ediv h0 (by omega)
    have hnn : 0 ≤ w / c := Int.ediv_nonneg h0 (by omega)
    have hle : w / c ≤ w := Int.ediv_le_self c h0
    have hwrap : wrapInt (w / c) = w / c :=
      wrapInt_eq _ (by have : (0 : Int) < 2 ^ 63 := by norm_num
                       omega) (by omega)
    simp only [maxResultsInLine, hdiv, hwrap]
    refine ⟨?_, ?_, ?_⟩
    · split <;> omega
    · split <;> omega
    · intro hlt
      have : w / c = 0 := Int.ediv_eq_zero_of_lt h0 hlt
      simp [this]
  · have hneg : Int.tdiv w c = 0 := by
      have h1 : Int.tdiv (-w) c = 0 := Int.tdiv_eq_zero_of_lt (by omega) (by omega)
      have h2 := Int.neg_tdiv (-w) c
      simp only [neg_neg] at h2
      rw [h2, h1]; rfl
    have hfl : w / c < 0 := Int.ediv_neg' (by omega) (by omega)
    have hone : maxResultsInLine w c = 1 := by
      have : wrapInt 0 = 0 := by decide
      simp [maxResultsInLine, hneg, this]
    rw [hone]
    refine ⟨?_, le_refl _, fun _ => rfl⟩
    omega

/-- C8, amended, at the width `-1` of an unavailable terminal size with
`maxPathLength = 5` and `minSpace = 2`: one column per row. -/
theorem maxResultsInLine_columns_witness :
    1 ≤ columnWidth 5 2 ∧ -(columnWidth 5 2) < -1 ∧ (-1 : Int) < 2 ^ 63
      ∧ maxResultsInLine (-1) (columnWidth 5 2) = 1
      ∧ (1 : Int) ≤ maxResultsInLine (-1) (columnWidth 5 2) :=
  have h := maxResultsInLine_columns (-1) 5 2 (by decide) (by decide) (by decide)
  ⟨by decide, by decide, by decide, h.2.2 (by decide), h.2.1⟩

/-- C9 as stated fails: with the single entry `x.txt`, `maxPathLength =
10000008` and `minSpace = 2`, the column width is `10000010`, a width `fmt`
gives up on: the cell written is the 32 characters
`%!(NOVERB)%!(EXTRA string=x.txt)`, not the path padded to `10000010`
characters, and the output is not the layout of the specification. -/
theorem printLsResults_wide_column :
    (∀ e ∈ [(⟨"x.txt", "file"⟩ : SearchResult)], (e.Path.length : Int) ≤ 10000008)
      ∧ printLsResults scenarioEnv 2 [⟨"x.txt", "file"⟩] 10000008
          = some "<white>%!(NOVERB)%!(EXTRA string=x.txt)<reset>\n"
      ∧ (sprintfLeft (columnWidth 10000008 2) "x.txt").length = 32
      ∧ printLsResults scenarioEnv 2 [⟨"x.txt", "file"⟩] 10000008
          ≠ some (specLayout scenarioEnv.Color
              (maxResultsInLine scenarioEnv.Width (10000008 + 2)) (10000008 + 2)
              [⟨"x.txt", "file"⟩]) := by
  have hout : printLsResults scenarioEnv 2 [⟨"x.txt", "file"⟩] 10000008
      = some "<white>%!(NOVERB)%!(EXTRA string=x.txt)<reset>\n" := by decide
  refine ⟨by decide, hout, by decide, ?_⟩
  rw [hout]
  intro h
  have hlen := congrArg String.length (Option.some.inj h)
  have hcell : (specCell (10000008 + 2) "x.txt").length = 10000010 :=
    specCell_length _ _ (by decide)
  have hleft : ("<white>%!(NOVERB)%!(EXTRA string=x.txt)<reset>\n" : String).length = 47 := by
    decide
  rw [hleft] at hlen
  simp only [specLayout, List.enum, List.enumFrom_cons, List.enumFrom_nil, List.map_cons,
    List.map_nil, join_cons, scenarioEnv, String.length_append, hcell] at hlen
  omega

/-- C9, amended (rendering layout).  For a positive `minSpace`, a
`maxPathLength ≥ 0` that no entry's path exceeds in length (counted in
characters, which the byte length bounds, see `length_le_len`) and a column
width `maxPathLength + minSpace` of at most `10000009`, `printLsResults` writes
exactly the layout of the specification with the columns per row it computed:
per entry, in the given order, a line break if and only if the index is a
nonzero multiple of the columns per row, then the path padded with spaces to
exactly `maxPathLength + minSpace` characters, coloured blue for a folder and
white otherwise; then one line break, which is the whole output when there is
no entry. -/
theorem printLsResults_layout (env : Env) (minSpace maxPathLength : Int)
    (searchResults : List SearchResult)
    (hlen : ∀ e ∈ searchResults, (e.Path.length : Int) ≤ maxPathLength)
    (hm : 0 ≤ maxPathLength) (hms : 0 < minSpace)
    (hwide : maxPathLength + minSpace ≤ 10000009) :
    printLsResults env minSpace searchResults maxPathLength
        = some (specLayout env.Color
            (maxResultsInLine env.Width (maxPathLength + minSpace))
            (maxPathLength + minSpace) searchResults)
      ∧ (∀ e ∈ searchResults,
          (specCell (maxPathLength + minSpace) e.Path).length
            = (maxPathLength + minSpace).toNat)
      ∧ (searchResults = [] →
          printLsResults env minSpace searchResults maxPathLength = some "\n") := by
  have hcw : columnWidth maxPathLength minSpace = maxPathLength + minSpace :=
    wrapInt_eq _ (by have : (0 : Int) < 2 ^ 63 := by norm_num
                     omega) (by norm_num; omega)
  have hc : maxPathLength + minSpace ≠ 0 := by omega
  refine ⟨?_, ?_, ?_⟩
  · simp only [printLsResults, hcw, hc, if_false, specLayout, List.enum]
    rw [printLoop_eq env _ _ (by omega) hwide]
  · intro e he
    exact specCell_length _ _ (by have := hlen e he; omega)
  · intro h
    subst h
    simp [printLsResults, hcw, hc, printLoop]

/-- C9, amended, at three entries on a terminal of 20 columns with
`maxPathLength = 5` and `minSpace = 2`: two cells of seven characters per
row. -/
theorem printLsResults_layout_witness :
    (∀ e ∈ [(⟨"x.txt", "file"⟩ : SearchResult), ⟨"sub", "folder"⟩, ⟨"y", "file"⟩],
        (e.Path.length : Int) ≤ 5)
      ∧ (5 + 2 : Int) ≤ 10000009
      ∧ printLsResults scenarioEnv 2 [⟨"x.txt", "file"⟩, ⟨"sub", "folder"⟩, ⟨"y", "file"⟩] 5
          = some "<white>x.txt  <reset><blue>sub    <reset>\n<white>y      <reset>\n" :=
  have hlen : ∀ e ∈ [(⟨"x.txt", "file"⟩ : SearchResult), ⟨"sub", "folder"⟩, ⟨"y", "file"⟩],
      (e.Path.length : Int) ≤ 5 := by decide
  have h := printLsResults_layout scenarioEnv 2 5
    [⟨"x.txt", "file"⟩, ⟨"sub", "folder"⟩, ⟨"y", "file"⟩] hlen (by decide) (by decide)
    (by decide)
  ⟨hlen, by decide, h.1.trans (by decide)⟩

/-! ## Empty folders -/

/-- C10 (empty folder listing fails).  When the first search sends `doSearch`
to the second search (its stream passes `checkSearchResults`,
`shouldRunSecondSearch` answers true without error, and it closes without
error), the second search succeeds and `checkSearchResults` reports an error on
its stream, `doLs` returns that error; its outside calls are the two searches
and one `Close` of each stream, so nothing is written. -/
theorem doLs_empty_folder_fails (hp : Helpers) (env : Env) (p : String) (w : World)
    (r0 r1 : ContentReader) (err : Error)
    (hfirst : env.Search p true = .ok r0)
    (hcheck : hp.checkSearchResults r0 p = none)
    (hrun : hp.shouldRunSecondSearch p r0 = (true, none))
    (hclose : r0.closeError = none)
    (hsecond : env.Search (p ++ "/") true = .ok r1)
    (hempty : hp.checkSearchResults r1 p = some err) :
    doLs hp env p w
      = (.returned (some err),
          ⟨w.readers ++ [r0, r1],
            w.trace ++ [Event.search p true, Event.close w.readers.length,
              Event.search (p ++ "/") true, Event.close (w.readers.length + 1)]⟩) := by
  have hs := doSearch_second_ok hp env p w r0 r1 hfirst hcheck hrun hclose hsecond
  rw [doLs_check_error hp env p w _ _ err hs (by rw [reader_append_second]; exact hempty)]
  rw [set_reader_self _ _ (by simp)]
  simp

/-- C10 at `repo/empty`, a folder whose second search returns no record: the
spec-modelled check reports the not-found error on the second stream. -/
theorem doLs_empty_folder_fails_witness :
    scenarioEnv.Search "repo/empty/" true = .ok ⟨[], none, none⟩
      ∧ scenarioHelpers.checkSearchResults ⟨[], none, none⟩ "repo/empty"
          = some "ls: repo/empty: No such file or directory"
      ∧ doLs scenarioHelpers scenarioEnv "repo/empty" World.init
          = (.returned (some "ls: repo/empty: No such file or directory"),
              ⟨[⟨[⟨"repo/empty", "folder"⟩], none, none⟩, ⟨[], none, none⟩],
                [Event.search "repo/empty" true, Event.close 0,
                  Event.search "repo/empty/" true, Event.close 1]⟩) :=
  ⟨rfl, rfl, doLs_empty_folder_fails scenarioHelpers scenarioEnv "repo/empty" World.init
    ⟨[⟨"repo/empty", "folder"⟩], none, none⟩ ⟨[], none, none⟩
    "ls: repo/empty: No such file or directory" rfl rfl rfl rfl rfl rfl⟩

end RtFs
